import Mathlib

set_option maxRecDepth 8000

/-!
Shallow embedding of the Agent-Quickstart client core (the wizard, validation,
pagination/search, and workflow-orchestration logic of the main script).
Network round-trips are supplied as explicit oracles; DOM rendering is out of
scope.  Machine arithmetic in the source is plain JavaScript number arithmetic
on small non-negative integers, embedded as `Nat`.
-/

/-- `APP_CONFIG.PAGINATION.MAX_ITEMS`. -/
def MAX_ITEMS : Nat := 5000

/-- `APP_CONFIG.PAGINATION.DEFAULT_PAGE_SIZE`. -/
def DEFAULT_PAGE_SIZE : Nat := 50

/-- A JavaScript value, as far as the `typeof v !== 'string'` guards of
`ValidationUtils` can distinguish inputs. -/
inductive JSVal where
  | str (s : String)
  | num (n : Int)
  | boolean (b : Bool)
  | jsNull
  | undef
deriving DecidableEq

/-- `String.prototype.trim`: drop whitespace from both ends, on the character
list. -/
def trimChars (l : List Char) : List Char :=
  ((l.dropWhile Char.isWhitespace).reverse.dropWhile Char.isWhitespace).reverse

/-- `String.prototype.trim` as a string operation. -/
def jsTrim (s : String) : String :=
  ⟨trimChars s.data⟩

/-- `String.prototype.toLowerCase` (ASCII case mapping). -/
def jsToLower (s : String) : String :=
  ⟨s.data.map Char.toLower⟩

/-- The character class `[<>'"&]` of `ValidationUtils.sanitizeString`. -/
def isSpecialChar (c : Char) : Bool :=
  c = '<' || c = '>' || c = '\'' || c = '"' || c = '&'

/-- The string core of `ValidationUtils.sanitizeString`:
`input.replace(/[<>'"&]/g, '')`. -/
def sanitizeStr (s : String) : String :=
  ⟨s.data.filter (fun c => !isSpecialChar c)⟩

/-- `ValidationUtils.sanitizeString`: non-string input yields `''`. -/
def sanitizeString : JSVal → String
  | .str s => sanitizeStr s
  | _ => ""

/-- Matcher for the sub-expression `[a-zA-Z0-9-]*[a-zA-Z0-9]$` applied to the
characters after the first one (the tail of the first regex alternative of
`isValidOrgName`). -/
def orgTail : List Char → Bool
  | [] => false
  | [c] => c.isAlphanum
  | c :: rest => (c.isAlphanum || c = '-') && orgTail rest

/-- Matcher for the regex of `ValidationUtils.isValidOrgName`:
`^[a-zA-Z0-9][a-zA-Z0-9-]*[a-zA-Z0-9]$|^[a-zA-Z0-9]$`. -/
def orgShape : List Char → Bool
  | [] => false
  | [c] => c.isAlphanum
  | c :: rest => c.isAlphanum && orgTail rest

/-- Matcher for the spec's org-name regex
`^[A-Za-z0-9]([A-Za-z0-9-]*[A-Za-z0-9])?$`, written from the spec's words for
comparison with the code's regex `orgShape`. -/
def specOrgShape : List Char → Bool
  | [] => false
  | c :: rest => c.isAlphanum && (rest.isEmpty || orgTail rest)

/-- `ValidationUtils.isValidOrgName` on a string input (`!orgName` is the
emptiness test for a JavaScript string). -/
def isValidOrgName (orgName : String) : Bool :=
  if orgName = "" then false
  else orgShape (sanitizeStr (jsTrim orgName)).data

/-- `ValidationUtils.isValidOrgName` on an arbitrary JavaScript value. -/
def isValidOrgNameJS : JSVal → Bool
  | .str s => isValidOrgName s
  | _ => false

/-- `ValidationUtils.isValidToken`: regex `^[a-zA-Z0-9_]{20,}$` on the trimmed
token. -/
def isValidToken (token : String) : Bool :=
  if token = "" then false
  else
    let sanitized := jsTrim token
    decide (20 ≤ sanitized.length) && sanitized.data.all (fun c => c.isAlphanum || c = '_')

lemma sanitizeStr_data (s : String) :
    (sanitizeStr s).data = s.data.filter (fun c => !isSpecialChar c) := rfl

lemma sanitizeStr_idem (s : String) : sanitizeStr (sanitizeStr s) = sanitizeStr s := by
  unfold sanitizeStr
  apply congrArg
  rw [String.data]
  rw [List.filter_filter]
  apply List.filter_congr
  intro c _
  cases isSpecialChar c <;> rfl

lemma orgShape_eq_specOrgShape (l : List Char) : orgShape l = specOrgShape l := by
  match l with
  | [] => rfl
  | [c] =>
    simp [orgShape, specOrgShape]
  | c :: c' :: rest =>
    simp [orgShape, specOrgShape]

/-- C7: `sanitizeString` never leaves one of `< > ' " &` in its output, maps
every non-string input to the empty string, and is idempotent. -/
theorem sanitizeString_spec :
    (∀ s : String, ∀ c ∈ (sanitizeString (JSVal.str s)).data, isSpecialChar c = false) ∧
    (∀ v : JSVal, (∀ s : String, v ≠ JSVal.str s) → sanitizeString v = "") ∧
    (∀ v : JSVal, sanitizeString (JSVal.str (sanitizeString v)) = sanitizeString v) := by
  refine ⟨?_, ?_, ?_⟩
  · intro s c hc
    rw [show sanitizeString (JSVal.str s) = sanitizeStr s from rfl, sanitizeStr_data] at hc
    have := List.of_mem_filter hc
    simpa using this
  · intro v hv
    cases v with
    | str s => exact absurd rfl (hv s)
    | num n => rfl
    | boolean b => rfl
    | jsNull => rfl
    | undef => rfl
  · intro v
    cases v with
    | str s => exact sanitizeStr_idem s
    | num n => rfl
    | boolean b => rfl
    | jsNull => rfl
    | undef => rfl

/-- Witness for C7 at concrete inputs. -/
theorem sanitizeString_spec_witness :
    sanitizeString (JSVal.num 7) = "" ∧
    sanitizeString (JSVal.str (sanitizeString (JSVal.str "a<b&c"))) =
      sanitizeString (JSVal.str "a<b&c") :=
  ⟨sanitizeString_spec.2.1 (JSVal.num 7) (fun _ h => JSVal.noConfusion h),
   sanitizeString_spec.2.2 (JSVal.str "a<b&c")⟩

/-- C8: `isValidOrgName` agrees with the spec's regex
`^[A-Za-z0-9]([A-Za-z0-9-]*[A-Za-z0-9])?$` on the sanitized, trimmed input,
for every string; empty and non-string inputs yield `false`. -/
theorem isValidOrgName_spec :
    (∀ n : String, isValidOrgName n = specOrgShape (sanitizeStr (jsTrim n)).data) ∧
    isValidOrgName "" = false ∧
    (∀ v : JSVal, (∀ s : String, v ≠ JSVal.str s) → isValidOrgNameJS v = false) := by
  refine ⟨?_, rfl, ?_⟩
  · intro n
    unfold isValidOrgName
    by_cases h : n = ""
    · subst h
      decide
    · rw [if_neg h, orgShape_eq_specOrgShape]
  · intro v hv
    cases v with
    | str s => exact absurd rfl (hv s)
    | num n => rfl
    | boolean b => rfl
    | jsNull => rfl
    | undef => rfl

/-- Witness for C8 at concrete inputs. -/
theorem isValidOrgName_spec_witness :
    isValidOrgName "my-org" = specOrgShape (sanitizeStr (jsTrim "my-org")).data ∧
    isValidOrgNameJS (JSVal.boolean true) = false :=
  ⟨isValidOrgName_spec.1 "my-org",
   isValidOrgName_spec.2.2 (JSVal.boolean true) (fun _ h => JSVal.noConfusion h)⟩

/-- The slice of `appState` read and written by the wizard state machine,
`validateInputs`, and the workflow entry checks. -/
structure AppState where
  currentStep : Nat
  selectedUseCase : Option String
  orgName : String
  authToken : String
  selectionMethod : String
  selectedRepos : List String
  selectedProperties : List (String × String)
deriving DecidableEq

/-- `canNavigateToStep` from the script.  JavaScript truthiness of the state
fields is emptiness of the strings, presence of the option, and non-emptiness
of the selection arrays. -/
def canNavigateToStep (s : AppState) (targetStep : Nat) : Bool :=
  if targetStep = 1 then true
  else if targetStep = 2 then s.selectedUseCase.isSome
  else if targetStep = 3 then
    s.selectedUseCase.isSome && !(s.orgName == "") && !(s.authToken == "")
  else if targetStep = 4 then
    let hasValidSelection :=
      s.selectionMethod == "all" ||
      (s.selectionMethod == "selected" && !s.selectedRepos.isEmpty) ||
      (s.selectionMethod == "properties" && !s.selectedProperties.isEmpty)
    s.selectedUseCase.isSome && !(s.orgName == "") && !(s.authToken == "") &&
      hasValidSelection
  else false

/-- `validateInputs`: reads the raw field values, trims them, sanitizes the
organization name (the token is only validated, not sanitized), and stores a
value into the state only when it validates — otherwise stores `''`. -/
def validateInputs (s : AppState) (orgInput authTokenInput : String) : AppState :=
  let orgNameRaw := jsTrim orgInput
  let authTokenRaw := jsTrim authTokenInput
  let orgName := sanitizeStr orgNameRaw
  let authToken := authTokenRaw
  { s with
    orgName := if isValidOrgName orgName then orgName else ""
    authToken := if isValidToken authToken then authToken else "" }

/-- C10: after any run of `validateInputs`, the stored `orgName` is empty or
valid, and the stored `authToken` is empty or valid — raw input that fails
validation is never stored. -/
theorem validateInputs_stores_only_valid (s : AppState) (orgInput authTokenInput : String) :
    ((validateInputs s orgInput authTokenInput).orgName = "" ∨
      isValidOrgName (validateInputs s orgInput authTokenInput).orgName = true) ∧
    ((validateInputs s orgInput authTokenInput).authToken = "" ∨
      isValidToken (validateInputs s orgInput authTokenInput).authToken = true) := by
  unfold validateInputs
  constructor
  · by_cases h : isValidOrgName (sanitizeStr (jsTrim orgInput)) = true
    · exact Or.inr (by simp [h])
    · exact Or.inl (by simp [h])
  · by_cases h : isValidToken (jsTrim authTokenInput) = true
    · exact Or.inr (by simp [h])
    · exact Or.inl (by simp [h])

/-- C4: on any state whose stored organization name and token are each empty
or valid (the invariant `validateInputs` maintains), the stage-3 gate
`canNavigateToStep 3` computes exactly "a use case is selected, and the
organization name and the token are both currently valid"; in particular it is
false whenever either field is empty or invalid and true as soon as a use case
is selected and both are valid. -/
theorem canNavigateToStep3_spec (s : AppState)
    (horg : s.orgName = "" ∨ isValidOrgName s.orgName = true)
    (htok : s.authToken = "" ∨ isValidToken s.authToken = true) :
    canNavigateToStep s 3 =
      (s.selectedUseCase.isSome && isValidOrgName s.orgName && isValidToken s.authToken) := by
  have horg' : (!(s.orgName == "")) = isValidOrgName s.orgName := by
    rcases horg with h | h
    · rw [h]; rfl
    · rw [h]
      have : s.orgName ≠ "" := by
        intro he
        rw [he] at h
        exact absurd h (by decide)
      simp [this]
  have htok' : (!(s.authToken == "")) = isValidToken s.authToken := by
    rcases htok with h | h
    · rw [h]; rfl
    · rw [h]
      have : s.authToken ≠ "" := by
        intro he
        rw [he] at h
        exact absurd h (by decide)
      simp [this]
  unfold canNavigateToStep
  simp only [horg', htok']
  rfl

/-- Witness for C4 at a concrete state with a selected use case and valid
credentials. -/
theorem canNavigateToStep3_spec_witness :
    canNavigateToStep ⟨2, some "tests", "my-org", "abcdefghij0123456789", "all", [], []⟩ 3 = true := by
  rw [canNavigateToStep3_spec ⟨2, some "tests", "my-org", "abcdefghij0123456789", "all", [], []⟩
    (Or.inr (by decide)) (Or.inr (by decide))]
  decide

/-- The `APIError` class: message and HTTP status (`0` for network failure). -/
structure APIErr where
  message : String
  status : Nat
deriving DecidableEq

/-- A GraphQL response body: an optional `errors` array of messages, and the
payload, opaque here. -/
structure GraphQLResponse where
  errors : Option (List String)
  payload : String
deriving DecidableEq

/-- `APIUtils.githubAPI`.  `net` is the oracle for the `secureFetch` +
`response.json()` round-trip; the second component counts how many network
calls were issued.  An unset token (`!appState.authToken`) fails fast with
status 401 before any network call. -/
def githubAPI {α : Type} (authToken : String) (net : Except APIErr α) :
    Except APIErr α × Nat :=
  if authToken = "" then (.error ⟨"Authentication token required", 401⟩, 0)
  else (net, 1)

/-- `APIUtils.githubGraphQL`: same fail-fast token check; a response carrying
a GraphQL `errors` array becomes an `APIError` with status 400 merging the
messages. -/
def githubGraphQL (authToken : String) (net : Except APIErr GraphQLResponse) :
    Except APIErr GraphQLResponse × Nat :=
  if authToken = "" then (.error ⟨"Authentication token required", 401⟩, 0)
  else
    match net with
    | .error e => (.error e, 1)
    | .ok d =>
      match d.errors with
      | some msgs => (.error ⟨"GraphQL Error: " ++ String.intercalate ", " msgs, 400⟩, 1)
      | none => (.ok d, 1)

/-- C9: with no token set, both `githubAPI` and `githubGraphQL` return an
`APIError` with status 401 and issue zero network calls, whatever the network
would have answered. -/
theorem auth_fail_fast (α : Type) (net : Except APIErr α)
    (netg : Except APIErr GraphQLResponse) :
    githubAPI "" net = (.error ⟨"Authentication token required", 401⟩, 0) ∧
    githubGraphQL "" netg = (.error ⟨"Authentication token required", 401⟩, 0) :=
  ⟨rfl, rfl⟩

/-- A repository as the pagination/search engine sees it. -/
structure Repo where
  name : String
  description : Option String
deriving DecidableEq

/-- An organization custom property as returned by the schema endpoint. -/
structure Property where
  property_name : String
  value_type : String
  description : Option String
deriving DecidableEq

/-- JavaScript `Math.ceil(a / b)` on non-negative integers. -/
def jsCeil (a b : Nat) : Nat := (a + b - 1) / b

/-- `sub.isPrefixOf l` for character lists. -/
def charsHavePre (sub : List Char) : List Char → Bool
  | [] => sub.isEmpty
  | c :: rest =>
    match sub with
    | [] => true
    | c' :: sub' => c == c' && charsHavePre sub' rest

/-- JS `String.prototype.includes`: `sub` occurs contiguously in `s`. -/
def strIncludes (s sub : String) : Bool :=
  go sub.data s.data
where
  /-- Try a match at every suffix. -/
  go (sub : List Char) : List Char → Bool
    | [] => sub.isEmpty
    | c :: rest => charsHavePre sub (c :: rest) || go sub rest

/-- The search term as computed by `filterRepos` / `filterProperties`:
`sanitizeString(input.value.toLowerCase().trim())`. -/
def searchTermOf (input : String) : String :=
  sanitizeStr (jsTrim (jsToLower input))

/-- The local predicate of `filterRepos`: case-insensitive substring match on
the name, or on the description when present. -/
def repoMatches (searchTerm : String) (r : Repo) : Bool :=
  strIncludes (jsToLower r.name) searchTerm ||
  (match r.description with
   | some d => strIncludes (jsToLower d) searchTerm
   | none => false)

/-- The locally filtered repository list of `filterRepos`. -/
def localMatchesOf (allRepos : List Repo) (searchTerm : String) : List Repo :=
  allRepos.filter (repoMatches searchTerm)

/-- The merge loop of `filterRepos`: push each API result unless a repository
with the same name is already in the accumulated list. -/
def mergeDedup (acc : List Repo) : List Repo → List Repo
  | [] => acc
  | r :: rest =>
    if acc.any (fun e => e.name == r.name) then mergeDedup acc rest
    else mergeDedup (acc ++ [r]) rest

/-- Outcome of a `filterRepos` run: the new filtered list and pagination
fields, and whether the remote search-API augmentation path was taken. -/
structure FilterReposResult where
  filteredRepos : List Repo
  currentPage : Nat
  totalPages : Nat
  searchTerm : String
  remoteIssued : Bool
deriving DecidableEq

/-- `filterRepos`.  `remote` is the oracle for the (cached)
`searchRepositoriesAPI` call; it is consulted only on the augmentation path.
A remote failure falls back to the local matches (the `catch` branch). -/
def filterRepos (allRepos : List Repo) (itemsPerPage : Nat) (searchInput : String)
    (remote : Except APIErr (List Repo)) : FilterReposResult :=
  let searchTerm := searchTermOf searchInput
  let fi : List Repo × Bool :=
    if searchTerm = "" then (allRepos, false)
    else
      let localMatches := localMatchesOf allRepos searchTerm
      if decide (localMatches.length < 10) && decide (2 ≤ searchTerm.length) then
        match remote with
        | .ok apiMatches => (mergeDedup localMatches apiMatches, true)
        | .error _ => (localMatches, true)
      else (localMatches, false)
  { filteredRepos := fi.1
    currentPage := 1
    totalPages := jsCeil fi.1.length itemsPerPage
    searchTerm := searchTerm
    remoteIssued := fi.2 }

/-- The property-side predicate of `filterProperties`. -/
def propertyMatches (searchTerm : String) (p : Property) : Bool :=
  strIncludes (jsToLower p.property_name) searchTerm ||
  (match p.description with
   | some d => strIncludes (jsToLower d) searchTerm
   | none => false)

/-- Outcome of a `filterProperties` run. -/
structure FilterPropsResult where
  filteredProperties : List Property
  currentPage : Nat
  totalPages : Nat
  searchTerm : String
deriving DecidableEq

/-- `filterProperties`: purely local filtering, then the same pagination
reset. -/
def filterProperties (allProperties : List Property) (itemsPerPage : Nat)
    (searchInput : String) : FilterPropsResult :=
  let searchTerm := searchTermOf searchInput
  let filtered :=
    if searchTerm = "" then allProperties
    else allProperties.filter (propertyMatches searchTerm)
  { filteredProperties := filtered
    currentPage := 1
    totalPages := jsCeil filtered.length itemsPerPage
    searchTerm := searchTerm }

/-- The catalog/pagination fields stored by `loadRepositories` after
`loadAllRepositories` returns: catalog truncated to the cap, page reset,
total pages recomputed. -/
def loadReposPagination (loaded : List Repo) (itemsPerPage : Nat) :
    List Repo × Nat × Nat :=
  let allRepos := loaded.take MAX_ITEMS
  (allRepos, 1, jsCeil allRepos.length itemsPerPage)

/-- `getMockCustomProperties`. -/
def getMockCustomProperties : List Property :=
  [⟨"environment", "single_select", some "Deployment environment (dev, staging, prod)"⟩,
   ⟨"team", "string", some "Owning team or department"⟩,
   ⟨"priority", "single_select", some "Project priority level"⟩,
   ⟨"framework", "string", some "Primary technology framework used"⟩,
   ⟨"status", "single_select", some "Current project status"⟩]

/-- The catalog/pagination fields stored by `loadCustomProperties`: the schema
truncated to the cap on success, the mock catalog on failure, then the same
pagination reset. -/
def loadPropsPagination (fetched : Except APIErr (List Property))
    (itemsPerPage : Nat) : List Property × Nat × Nat :=
  let allProperties :=
    match fetched with
    | .ok props => props.take MAX_ITEMS
    | .error _ => getMockCustomProperties
  (allProperties, 1, jsCeil allProperties.length itemsPerPage)

lemma jsCeil_bounds (n : Nat) :
    n ≤ 50 * jsCeil n 50 ∧ 50 * jsCeil n 50 < n + 50 ∧ (n ≠ 0 → 1 ≤ jsCeil n 50) := by
  unfold jsCeil
  omega

/-- The pagination fields a view is expected to carry right after a filter or
catalog change, for page size 50: page reset to 1, `totalPages` the exact
ceiling of `count / 50`, and the `1 ≤ currentPage ≤ totalPages` invariant
whenever the filtered set is non-empty. -/
def PageReset (currentPage totalPages count : Nat) : Prop :=
  currentPage = 1 ∧ count ≤ 50 * totalPages ∧ 50 * totalPages < count + 50 ∧
  (count ≠ 0 → 1 ≤ totalPages ∧ currentPage ≤ totalPages)

lemma pageReset_of_jsCeil (n : Nat) : PageReset 1 (jsCeil n 50) n := by
  obtain ⟨h1, h2, h3⟩ := jsCeil_bounds n
  exact ⟨rfl, h1, h2, fun hn => ⟨h3 hn, h3 hn⟩⟩

/-- C2 (amended): after any repository filter, property filter, repository
catalog load or property catalog load, `currentPage` is reset to 1 and
`totalPages` is exactly `ceil(filteredCount / pageSize)` — zero when the
filtered set is empty — so `1 ≤ currentPage ≤ totalPages` holds whenever the
filtered set is non-empty. -/
theorem pagination_reset_spec :
    (∀ (allRepos : List Repo) (searchInput : String) (remote : Except APIErr (List Repo)),
      PageReset (filterRepos allRepos 50 searchInput remote).currentPage
        (filterRepos allRepos 50 searchInput remote).totalPages
        (filterRepos allRepos 50 searchInput remote).filteredRepos.length) ∧
    (∀ (allProps : List Property) (searchInput : String),
      PageReset (filterProperties allProps 50 searchInput).currentPage
        (filterProperties allProps 50 searchInput).totalPages
        (filterProperties allProps 50 searchInput).filteredProperties.length) ∧
    (∀ loaded : List Repo,
      PageReset (loadReposPagination loaded 50).2.1 (loadReposPagination loaded 50).2.2
        (loadReposPagination loaded 50).1.length) ∧
    (∀ fetched : Except APIErr (List Property),
      PageReset (loadPropsPagination fetched 50).2.1 (loadPropsPagination fetched 50).2.2
        (loadPropsPagination fetched 50).1.length) := by
  refine ⟨?_, ?_, ?_, ?_⟩
  · intro allRepos searchInput remote
    exact pageReset_of_jsCeil _
  · intro allProps searchInput
    exact pageReset_of_jsCeil _
  · intro loaded
    exact pageReset_of_jsCeil _
  · intro fetched
    exact pageReset_of_jsCeil _

/-- Witness for amended C2 at a concrete non-empty catalog. -/
theorem pagination_reset_spec_witness :
    (filterRepos [⟨"alpha", none⟩] 50 "" (.error ⟨"e", 0⟩)).currentPage = 1 ∧
    1 ≤ (filterRepos [⟨"alpha", none⟩] 50 "" (.error ⟨"e", 0⟩)).totalPages ∧
    (filterRepos [⟨"alpha", none⟩] 50 "" (.error ⟨"e", 0⟩)).currentPage ≤
      (filterRepos [⟨"alpha", none⟩] 50 "" (.error ⟨"e", 0⟩)).totalPages := by
  have h := pagination_reset_spec.1 [⟨"alpha", none⟩] "" (.error ⟨"e", 0⟩)
  have hne : (filterRepos [⟨"alpha", none⟩] 50 "" (.error ⟨"e", 0⟩)).filteredRepos.length ≠ 0 := by
    decide
  exact ⟨h.1, (h.2.2.2 hne).1, (h.2.2.2 hne).2⟩

/-- C2 counterexample: filtering the (empty) property catalog with the term
`"xy"` yields `totalPages = 0`, not the claimed minimum of 1, and the claimed
invariant `currentPage ≤ totalPages` fails. -/
theorem pagination_floor_counterexample :
    (filterProperties [] 50 "xy").currentPage = 1 ∧
    (filterProperties [] 50 "xy").totalPages = 0 ∧
    ¬((filterProperties [] 50 "xy").currentPage ≤ (filterProperties [] 50 "xy").totalPages) := by
  decide

lemma mergeDedup_mem_of_mem_acc (api : List Repo) :
    ∀ acc r, r ∈ acc → r ∈ mergeDedup acc api := by
  induction api with
  | nil => intro acc r hr; exact hr
  | cons a rest ih =>
    intro acc r hr
    unfold mergeDedup
    by_cases h : acc.any (fun e => e.name == a.name) = true
    · simp only [h, if_true]
      exact ih acc r hr
    · simp only [h, if_false]
      exact ih (acc ++ [a]) r (List.mem_append_left _ hr)

lemma mergeDedup_name_covered (api : List Repo) :
    ∀ acc r, r ∈ api → ∃ r' ∈ mergeDedup acc api, r'.name = r.name := by
  induction api with
  | nil => intro acc r hr; exact absurd hr (List.not_mem_nil r)
  | cons a rest ih =>
    intro acc r hr
    unfold mergeDedup
    rcases List.mem_cons.1 hr with rfl | hr'
    · by_cases h : acc.any (fun e => e.name == r.name) = true
      · simp only [h, if_true]
        obtain ⟨e, he, heq⟩ := List.any_eq_true.1 h
        exact ⟨e, mergeDedup_mem_of_mem_acc rest acc e he, eq_of_beq heq⟩
      · simp only [h, if_false]
        refine ⟨r, mergeDedup_mem_of_mem_acc rest _ r ?_, rfl⟩
        exact List.mem_append_right _ (List.mem_singleton.2 rfl)
    · by_cases h : acc.any (fun e => e.name == a.name) = true
      · simp only [h, if_true]
        exact ih acc r hr'
      · simp only [h, if_false]
        exact ih (acc ++ [a]) r hr'

lemma mergeDedup_nodup (api : List Repo) :
    ∀ acc, (acc.map Repo.name).Nodup → ((mergeDedup acc api).map Repo.name).Nodup := by
  induction api with
  | nil => intro acc h; exact h
  | cons a rest ih =>
    intro acc hacc
    unfold mergeDedup
    by_cases h : acc.any (fun e => e.name == a.name) = true
    · simp only [h, if_true]
      exact ih acc hacc
    · simp only [h, if_false]
      apply ih
      rw [List.map_append]
      rw [List.nodup_append]
      refine ⟨hacc, List.nodup_singleton _, ?_⟩
      intro x hx hx'
      simp only [List.map_cons, List.map_nil, List.mem_singleton] at hx'
      subst hx'
      obtain ⟨e, he, hename⟩ := List.mem_map.1 hx
      exact h (List.any_eq_true.2 ⟨e, he, by simp [hename]⟩)

lemma filterRepos_issued_char (allRepos : List Repo) (ipp : Nat) (input : String)
    (remote : Except APIErr (List Repo)) :
    (filterRepos allRepos ipp input remote).remoteIssued =
      (!(searchTermOf input == "") &&
        (decide ((localMatchesOf allRepos (searchTermOf input)).length < 10) &&
          decide (2 ≤ (searchTermOf input).length))) := by
  unfold filterRepos
  by_cases h : searchTermOf input = ""
  · simp [h]
  · simp only [h, if_false, beq_iff_eq]
    by_cases hc : (decide ((localMatchesOf allRepos (searchTermOf input)).length < 10) &&
        decide (2 ≤ (searchTermOf input).length)) = true
    · simp only [hc, if_true, Bool.and_true]
      cases remote with
      | ok api => simp [h]
      | error e => simp [h]
    · simp only [Bool.not_eq_true] at hc
      simp [hc, h]

lemma filterRepos_filtered_char (allRepos : List Repo) (ipp : Nat) (input : String)
    (remote : Except APIErr (List Repo))
    (hIss : (filterRepos allRepos ipp input remote).remoteIssued = true) :
    (filterRepos allRepos ipp input remote).filteredRepos =
      match remote with
      | .ok api => mergeDedup (localMatchesOf allRepos (searchTermOf input)) api
      | .error _ => localMatchesOf allRepos (searchTermOf input) := by
  have hch := filterRepos_issued_char allRepos ipp input remote
  rw [hIss] at hch
  have h1 : ¬(searchTermOf input = "") := by
    intro h
    rw [h] at hch
    simp at hch
  have h2 : (decide ((localMatchesOf allRepos (searchTermOf input)).length < 10) &&
      decide (2 ≤ (searchTermOf input).length)) = true := by
    cases hb : (decide ((localMatchesOf allRepos (searchTermOf input)).length < 10) &&
        decide (2 ≤ (searchTermOf input).length)) with
    | true => rfl
    | false => rw [hb] at hch; simp at hch
  unfold filterRepos
  simp only [h1, if_false, h2, if_true]
  cases remote with
  | ok api => rfl
  | error e => rfl

/-- C5: the remote search augmentation of `filterRepos` is taken only when the
local matches number fewer than 10 and the search term has at least two
characters; a one-character term never takes it; when taken, a remote failure
silently yields exactly the local matches, and a remote success merges the two
lists keeping every local match, representing every remote repository by name,
and introducing no duplicate names. -/
theorem filterRepos_remote_search_spec :
    (∀ (allRepos : List Repo) (ipp : Nat) (input : String) (remote : Except APIErr (List Repo)),
      (filterRepos allRepos ipp input remote).remoteIssued = true →
      (localMatchesOf allRepos (searchTermOf input)).length < 10 ∧
      2 ≤ (searchTermOf input).length) ∧
    (∀ (allRepos : List Repo) (ipp : Nat) (input : String) (remote : Except APIErr (List Repo)),
      (searchTermOf input).length = 1 →
      (filterRepos allRepos ipp input remote).remoteIssued = false) ∧
    (∀ (allRepos : List Repo) (ipp : Nat) (input : String) (e : APIErr),
      (filterRepos allRepos ipp input (.error e)).remoteIssued = true →
      (filterRepos allRepos ipp input (.error e)).filteredRepos =
        localMatchesOf allRepos (searchTermOf input)) ∧
    (∀ (allRepos : List Repo) (ipp : Nat) (input : String) (api : List Repo),
      (filterRepos allRepos ipp input (.ok api)).remoteIssued = true →
      (∀ r ∈ localMatchesOf allRepos (searchTermOf input),
        r ∈ (filterRepos allRepos ipp input (.ok api)).filteredRepos) ∧
      (∀ r ∈ api, ∃ r' ∈ (filterRepos allRepos ipp input (.ok api)).filteredRepos,
        r'.name = r.name) ∧
      (((localMatchesOf allRepos (searchTermOf input)).map Repo.name).Nodup →
        (((filterRepos allRepos ipp input (.ok api)).filteredRepos).map Repo.name).Nodup)) := by
  refine ⟨?_, ?_, ?_, ?_⟩
  · intro allRepos ipp input remote h
    have hch := filterRepos_issued_char allRepos ipp input remote
    rw [h] at hch
    have hch' := hch.symm
    simp only [Bool.and_eq_true, decide_eq_true_eq] at hch'
    exact ⟨hch'.2.1, hch'.2.2⟩
  · intro allRepos ipp input remote h
    have hch := filterRepos_issued_char allRepos ipp input remote
    rw [hch]
    have : decide (2 ≤ (searchTermOf input).length) = false := by
      rw [decide_eq_false_iff_not]
      omega
    simp [this]
  · intro allRepos ipp input e h
    exact filterRepos_filtered_char allRepos ipp input (.error e) h
  · intro allRepos ipp input api h
    have hf := filterRepos_filtered_char allRepos ipp input (.ok api) h
    simp only at hf
    rw [hf]
    refine ⟨?_, ?_, ?_⟩
    · intro r hr
      exact mergeDedup_mem_of_mem_acc api _ r hr
    · intro r hr
      exact mergeDedup_name_covered api _ r hr
    · intro hnd
      exact mergeDedup_nodup api _ hnd

/-- Witness for C5: a one-character term does not take the remote path even
with zero local matches, and a failing remote search yields the local matches
on a two-character term. -/
theorem filterRepos_remote_search_spec_witness :
    (filterRepos [] 50 "a" (.ok [⟨"axe", none⟩])).remoteIssued = false ∧
    (filterRepos [] 50 "ab" (.error ⟨"boom", 500⟩)).filteredRepos =
      localMatchesOf [] (searchTermOf "ab") := by
  constructor
  · exact filterRepos_remote_search_spec.2.1 [] 50 "a" (.ok [⟨"axe", none⟩]) (by decide)
  · exact filterRepos_remote_search_spec.2.2.1 [] 50 "ab" ⟨"boom", 500⟩ (by decide)

/-- The accumulation loop of `loadAllRepositories`: starting from `acc` and
page number `page`, request pages while fewer than `MAX_ITEMS` items are
accumulated; stop on a fetch error, an empty page, or a short page (fewer
than the page size 100).  Returns the accumulated list and the number of page
requests issued.  `fetch` is the oracle for
`githubAPI('/orgs/.../repos?per_page=100&page=...')`. -/
def loadLoop (fetch : Nat → Except APIErr (List Repo)) (acc : List Repo) (page : Nat) :
    List Repo × Nat :=
  if _h : acc.length < MAX_ITEMS then
    match fetch page with
    | .error _ => (acc, 1)
    | .ok repos =>
      if repos.length = 0 then (acc, 1)
      else if repos.length < 100 then (acc ++ repos, 1)
      else
        ((loadLoop fetch (acc ++ repos) (page + 1)).1,
         (loadLoop fetch (acc ++ repos) (page + 1)).2 + 1)
  else (acc, 0)
termination_by MAX_ITEMS - acc.length
decreasing_by
  simp only [MAX_ITEMS, List.length_append] at *
  omega

/-- `loadAllRepositories`: the loop started on an empty accumulator at
page 1. -/
def loadAllRepositories (fetch : Nat → Except APIErr (List Repo)) : List Repo × Nat :=
  loadLoop fetch [] 1

/-- The catalog stored by `loadRepositories`:
`allRepos.slice(0, APP_CONFIG.PAGINATION.MAX_ITEMS)`. -/
def loadRepositories (fetch : Nat → Except APIErr (List Repo)) : List Repo :=
  (loadAllRepositories fetch).1.take MAX_ITEMS

lemma loadLoop_step (fetch : Nat → Except APIErr (List Repo)) (acc : List Repo)
    (page : Nat) (h : acc.length < MAX_ITEMS) :
    loadLoop fetch acc page =
      match fetch page with
      | .error _ => (acc, 1)
      | .ok repos =>
        if repos.length = 0 then (acc, 1)
        else if repos.length < 100 then (acc ++ repos, 1)
        else
          ((loadLoop fetch (acc ++ repos) (page + 1)).1,
           (loadLoop fetch (acc ++ repos) (page + 1)).2 + 1) := by
  rw [loadLoop]
  rw [dif_pos h]

lemma loadLoop_stop (fetch : Nat → Except APIErr (List Repo)) (acc : List Repo)
    (page : Nat) (h : ¬acc.length < MAX_ITEMS) :
    loadLoop fetch acc page = (acc, 0) := by
  rw [loadLoop]
  rw [dif_neg h]

lemma loadLoop_isPre (fetch : Nat → Except APIErr (List Repo)) :
    ∀ (n : Nat) (acc : List Repo) (page : Nat), MAX_ITEMS - acc.length ≤ n →
      acc <+: (loadLoop fetch acc page).1 := by
  intro n
  induction n with
  | zero =>
    intro acc page hle
    have h : ¬acc.length < MAX_ITEMS := by omega
    rw [loadLoop_stop fetch acc page h]
  | succ n ih =>
    intro acc page hle
    by_cases h : acc.length < MAX_ITEMS
    · rw [loadLoop_step fetch acc page h]
      cases hf : fetch page with
      | error e => exact List.prefix_rfl
      | ok repos =>
        by_cases h0 : repos.length = 0
        · simp only [h0, if_true]
          exact List.prefix_rfl
        · simp only [h0, if_false]
          by_cases hs : repos.length < 100
          · simp only [hs, if_true]
            exact List.prefix_append acc repos
          · simp only [hs, if_false]
            have hle' : MAX_ITEMS - (acc ++ repos).length ≤ n := by
              simp only [List.length_append]
              simp only [MAX_ITEMS] at *
              omega
            exact List.IsPrefix.trans (List.prefix_append acc repos)
              (ih (acc ++ repos) (page + 1) hle')
    · rw [loadLoop_stop fetch acc page h]

/-- The page oracle of an organization with exactly 250 repositories under
page size 100: pages 1 and 2 are full, page 3 holds the remaining 50; later
pages (never requested by a correct loop) would answer full pages again. -/
def fetch250 : Nat → Except APIErr (List Repo)
  | 1 => .ok (List.replicate 100 ⟨"repo", none⟩)
  | 2 => .ok (List.replicate 100 ⟨"repo", none⟩)
  | 3 => .ok (List.replicate 50 ⟨"repo", none⟩)
  | _ => .ok (List.replicate 100 ⟨"repo", none⟩)

/-- C3: the loading loop never discards already-accumulated pages (the
accumulator is always a prefix of the result); the stored catalog is truncated
to at most `MAX_ITEMS` items; a page-fetch error stops the loop immediately,
returning exactly what was accumulated after that single failed request; and
an organization with exactly 250 repositories is loaded with exactly 3 page
requests, the short 50-item third page ending the loop. -/
theorem loadAllRepositories_spec :
    (∀ (fetch : Nat → Except APIErr (List Repo)) (acc : List Repo) (page : Nat),
      acc <+: (loadLoop fetch acc page).1) ∧
    (∀ fetch : Nat → Except APIErr (List Repo),
      (loadRepositories fetch).length ≤ MAX_ITEMS) ∧
    (∀ (fetch : Nat → Except APIErr (List Repo)) (acc : List Repo) (page : Nat)
      (e : APIErr), acc.length < MAX_ITEMS → fetch page = .error e →
      loadLoop fetch acc page = (acc, 1)) ∧
    loadAllRepositories fetch250 = (List.replicate 250 ⟨"repo", none⟩, 3) := by
  refine ⟨?_, ?_, ?_, ?_⟩
  · intro fetch acc page
    exact loadLoop_isPre fetch MAX_ITEMS acc page (Nat.sub_le _ _)
  · intro fetch
    unfold loadRepositories
    exact List.length_take_le _ _
  · intro fetch acc page e h hf
    rw [loadLoop_step fetch acc page h, hf]
  · have h3 : loadLoop fetch250 (List.replicate 200 ⟨"repo", none⟩) 3 =
        (List.replicate 250 ⟨"repo", none⟩, 1) := by
      rw [loadLoop_step fetch250 (List.replicate 200 ⟨"repo", none⟩) 3 (by decide)]
      decide
    have h2 : loadLoop fetch250 (List.replicate 100 ⟨"repo", none⟩) 2 =
        (List.replicate 250 ⟨"repo", none⟩, 2) := by
      rw [loadLoop_step fetch250 (List.replicate 100 ⟨"repo", none⟩) 2 (by decide)]
      change ((loadLoop fetch250 (List.replicate 200 ⟨"repo", none⟩) 3).1,
        (loadLoop fetch250 (List.replicate 200 ⟨"repo", none⟩) 3).2 + 1) = _
      rw [h3]
    unfold loadAllRepositories
    rw [loadLoop_step fetch250 [] 1 (by decide)]
    change ((loadLoop fetch250 (List.replicate 100 ⟨"repo", none⟩) 2).1,
      (loadLoop fetch250 (List.replicate 100 ⟨"repo", none⟩) 2).2 + 1) = _
    rw [h2]

/-- Witness for C3: a failing first page yields the empty partial catalog
after exactly one request. -/
theorem loadAllRepositories_spec_witness :
    loadLoop (fun _ => .error ⟨"HTTP 500: Internal Server Error", 500⟩) [] 1 = ([], 1) :=
  loadAllRepositories_spec.2.2.1 (fun _ => .error ⟨"HTTP 500: Internal Server Error", 500⟩)
    [] 1 ⟨"HTTP 500: Internal Server Error", 500⟩ (by decide) rfl

/-- A created issue, as far as the workflow needs it. -/
structure Issue where
  number : Nat
  html_url : String
deriving DecidableEq

/-- Per-repository oracles for a workflow run: the outcome of the issue
creation POST and the outcome of the whole `assignCopilotToIssue` call. -/
structure WorkflowEnv where
  issueResult : String → Except APIErr Issue
  assignResult : String → Except APIErr Unit

/-- `createIssueAndAssignCopilot`: validates the repository name and prompt,
creates the issue, then tries the bot assignment inside its own `try/catch` —
an assignment failure is logged and swallowed, and the created issue is
returned either way.  An issue-creation failure is rethrown. -/
def createIssueAndAssignCopilot (env : WorkflowEnv) (promptContent : String)
    (repoName : String) : Except APIErr Issue :=
  if repoName == "" || sanitizeStr repoName == "" then
    .error ⟨"Invalid repository name", 400⟩
  else if jsTrim promptContent == "" then
    .error ⟨"Prompt content is required", 400⟩
  else
    match env.issueResult repoName with
    | .error e => .error e
    | .ok issue =>
      match env.assignResult repoName with
      | .ok _ => .ok issue
      | .error _ => .ok issue

/-- One entry of the `results` array built by `executeWorkflow`'s loop. -/
structure RepoResult where
  repo : String
  success : Bool
  error : Option String
deriving DecidableEq

/-- The `results` array of `executeWorkflow`: one entry per target, in order;
a thrown error is caught and recorded as a failure for that repository only. -/
def executeWorkflowResults (env : WorkflowEnv) (promptContent : String)
    (targets : List String) : List RepoResult :=
  targets.map fun name =>
    match createIssueAndAssignCopilot env promptContent name with
    | .ok _ => ⟨name, true, none⟩
    | .error e => ⟨name, false, some e.message⟩

/-- `results.filter(r => r.success).length`. -/
def successCount (results : List RepoResult) : Nat :=
  (results.filter (fun r => r.success)).length

/-- `results.length - successCount`. -/
def failureCount (results : List RepoResult) : Nat :=
  results.length - successCount results

/-- The end-of-run report of `executeWorkflow`. -/
inductive WorkflowReport where
  | success (failedRepos : List String)
  | failure (message : String)
deriving DecidableEq

/-- The reporting tail of `executeWorkflow`: overall success (with the list of
failed repositories) iff at least one repository succeeded, otherwise the
permissions-check failure message. -/
def completeWorkflow (results : List RepoResult) : WorkflowReport :=
  if 0 < successCount results then
    .success ((results.filter (fun r => !r.success)).map (fun r => r.repo))
  else
    .failure "No issues were created successfully. Please check your permissions and try again."

/-- `executeWorkflow` from the resolved target list on: the per-repository
loop followed by the aggregation. -/
def executeWorkflow (env : WorkflowEnv) (promptContent : String)
    (targets : List String) : List RepoResult × WorkflowReport :=
  let results := executeWorkflowResults env promptContent targets
  (results, completeWorkflow results)

/-- The oracle of the C1 scenario: R1's issue succeeds, R2's issue creation
fails with 403, R3's issue succeeds but its bot assignment fails. -/
def scenarioEnv : WorkflowEnv where
  issueResult := fun n =>
    if n == "R2" then .error ⟨"HTTP 403: Forbidden", 403⟩
    else .ok ⟨1, "https://github.example/issue/1"⟩
  assignResult := fun n =>
    if n == "R3" then .error ⟨"GraphQL query failed: 500", 500⟩
    else .ok ()

lemma completeWorkflow_success_iff (results : List RepoResult) :
    (∃ fl, completeWorkflow results = .success fl) ↔ 0 < successCount results := by
  unfold completeWorkflow
  by_cases h : 0 < successCount results
  · rw [if_pos h]
    exact ⟨fun _ => h, fun _ => ⟨_, rfl⟩⟩
  · rw [if_neg h]
    constructor
    · intro ⟨fl, hfl⟩
      exact WorkflowReport.noConfusion hfl
    · intro hpos
      exact absurd hpos h

lemma completeWorkflow_failure_iff (results : List RepoResult) :
    (completeWorkflow results =
      .failure "No issues were created successfully. Please check your permissions and try again.") ↔
      successCount results = 0 := by
  unfold completeWorkflow
  by_cases h : 0 < successCount results
  · rw [if_pos h]
    constructor
    · intro hfl
      exact WorkflowReport.noConfusion hfl
    · intro h0
      omega
  · rw [if_neg h]
    exact ⟨fun _ => by omega, fun _ => rfl⟩

/-- C1: a workflow run over a non-empty target list reports overall success
iff at least one repository succeeded, and reports the permissions-check
failure message iff zero succeeded; in the scenario R1 ok / R2 403 on issue
creation / R3 ok with failed bot assignment, the run reports overall success
with `successCount = 2`, `failureCount = 1`, and R3 recorded as a success. -/
theorem executeWorkflow_spec :
    (∀ (env : WorkflowEnv) (promptContent : String) (targets : List String),
      targets ≠ [] →
      ((∃ fl, (executeWorkflow env promptContent targets).2 = .success fl) ↔
        0 < successCount (executeWorkflow env promptContent targets).1) ∧
      ((executeWorkflow env promptContent targets).2 =
          .failure "No issues were created successfully. Please check your permissions and try again." ↔
        successCount (executeWorkflow env promptContent targets).1 = 0)) ∧
    (executeWorkflow scenarioEnv "Do the task" ["R1", "R2", "R3"]).1 =
      [⟨"R1", true, none⟩, ⟨"R2", false, some "HTTP 403: Forbidden"⟩, ⟨"R3", true, none⟩] ∧
    successCount (executeWorkflow scenarioEnv "Do the task" ["R1", "R2", "R3"]).1 = 2 ∧
    failureCount (executeWorkflow scenarioEnv "Do the task" ["R1", "R2", "R3"]).1 = 1 ∧
    (executeWorkflow scenarioEnv "Do the task" ["R1", "R2", "R3"]).2 = .success ["R2"] := by
  refine ⟨?_, by decide, by decide, by decide, by decide⟩
  intro env promptContent targets _
  exact ⟨completeWorkflow_success_iff (executeWorkflowResults env promptContent targets),
    completeWorkflow_failure_iff (executeWorkflowResults env promptContent targets)⟩

/-- Witness for C1: instantiates the aggregation equivalence on the concrete
three-repository scenario. -/
theorem executeWorkflow_spec_witness :
    (∃ fl, (executeWorkflow scenarioEnv "Do the task" ["R1", "R2", "R3"]).2 = .success fl) ↔
      0 < successCount (executeWorkflow scenarioEnv "Do the task" ["R1", "R2", "R3"]).1 :=
  (executeWorkflow_spec.1 scenarioEnv "Do the task" ["R1", "R2", "R3"] (by decide)).1

/-- A `suggestedActors` page: the bot nodes and whether `pageInfo` announces a
next page (the cursor chain is the list order). -/
structure SuggestedPage where
  nodes : List (String × String)
  hasNextPage : Bool
deriving DecidableEq

/-- The login scan of one `findCopilotBot` page: first node whose `login` is
exactly `copilot-swe-agent`. -/
def findInNodes (nodes : List (String × String)) : Option (String × String) :=
  nodes.find? (fun n => n.2 == "copilot-swe-agent")

/-- `findCopilotBot`: scan the current page, return the first match; otherwise
follow `hasNextPage`/`endCursor` to the next page, and return `null` once the
pages are exhausted.  Pages are the successive answers of the GraphQL oracle;
each node is (id, login). -/
def findCopilotBot : List SuggestedPage → Option (String × String)
  | [] => none
  | p :: rest =>
    match findInNodes p.nodes with
    | some a => some a
    | none => if p.hasNextPage then findCopilotBot rest else none

/-- C6: when every non-final page announces a next page, `findCopilotBot`
returns exactly the first actor with login `copilot-swe-agent` across all
pages in order, and `none` — without an error — when no page contains that
login. -/
theorem findCopilotBot_spec (pages : List SuggestedPage)
    (h : ∀ p ∈ pages.dropLast, p.hasNextPage = true) :
    findCopilotBot pages =
      (pages.flatMap (fun p => p.nodes)).find? (fun n => n.2 == "copilot-swe-agent") := by
  induction pages with
  | nil => rfl
  | cons p rest ih =>
    unfold findCopilotBot
    rw [List.flatMap_cons, List.find?_append]
    cases hf : findInNodes p.nodes with
    | some a =>
      unfold findInNodes at hf
      rw [hf]
      rfl
    | none =>
      unfold findInNodes at hf
      rw [hf, Option.none_or]
      show (if p.hasNextPage = true then findCopilotBot rest else none) =
        List.find? (fun n => n.2 == "copilot-swe-agent") (rest.flatMap fun q => q.nodes)
      cases rest with
      | nil =>
        cases p.hasNextPage <;> rfl
      | cons q rest' =>
        have hp : p.hasNextPage = true := by
          apply h
          rw [show (p :: q :: rest').dropLast = p :: (q :: rest').dropLast from rfl]
          exact List.mem_cons_self p _
        rw [hp, if_pos rfl]
        exact ih (fun q' hq' => h q' (by
          rw [show (p :: q :: rest').dropLast = p :: (q :: rest').dropLast from rfl]
          exact List.mem_cons_of_mem p hq'))

/-- Witness for C6: two chained pages, the bot on the second. -/
theorem findCopilotBot_spec_witness :
    findCopilotBot [⟨[("id1", "someone")], true⟩, ⟨[("id2", "copilot-swe-agent")], false⟩] =
      some ("id2", "copilot-swe-agent") := by
  rw [findCopilotBot_spec
    [⟨[("id1", "someone")], true⟩, ⟨[("id2", "copilot-swe-agent")], false⟩] (by decide)]
  decide
